import Mathlib

/-!
A shallow embedding of the session orchestration engine found in
modules/api-orchestrator/orchestrator.py, together with proofs about it.

Modelling conventions:
- Python dicts produced by json.loads are modelled by the inductive type Json.
- The json module is modelled by an executable recursive-descent reader for
  the standard JSON grammar with integer numerals; fractional numerals and
  unicode escapes are not needed by any input considered here.
- External effects (the planning service, operator input, subprocesses and
  file writes) are passed in as explicit parameters, indexed by call count
  where order matters.
- A Python exception escaping a function is modelled by Except.error.
- KeyboardInterrupt at a suspension point is modelled by dedicated
  interrupt outcomes of the service and operator input streams.
-/

def lbrace : Char := Char.ofNat 123

def rbrace : Char := Char.ofNat 125

def squote : String := String.singleton (Char.ofNat 39)

def lbS : String := String.singleton lbrace

def rbS : String := String.singleton rbrace

def strTake (s : String) (n : Nat) : String := String.mk (s.data.take n)

inductive Json where
  | null : Json
  | bool (b : Bool) : Json
  | num (n : Int) : Json
  | str (s : String) : Json
  | arr (elems : List Json) : Json
  | obj (fields : List (String × Json)) : Json

def jsonWs (c : Char) : Bool := c == ' ' || c == '\t' || c == '\n' || c == '\r'

def skipWs : List Char → List Char
  | [] => []
  | c :: cs => if jsonWs c then skipWs cs else c :: cs

def escChar : Char → Option Char
  | '"' => some '"'
  | '\\' => some '\\'
  | '/' => some '/'
  | 'b' => some (Char.ofNat 8)
  | 'f' => some (Char.ofNat 12)
  | 'n' => some '\n'
  | 'r' => some '\r'
  | 't' => some '\t'
  | _ => none

def parseStrBody : List Char → Option (List Char × List Char)
  | [] => none
  | c :: cs =>
    if c = '"' then some ([], cs)
    else if c = '\\' then
      match cs with
      | [] => none
      | e :: cs2 =>
        match escChar e with
        | none => none
        | some ec =>
          match parseStrBody cs2 with
          | none => none
          | some (s, r) => some (ec :: s, r)
    else
      match parseStrBody cs with
      | none => none
      | some (s, r) => some (c :: s, r)

def takeDigits : List Char → List Char × List Char
  | [] => ([], [])
  | c :: cs =>
    if c.isDigit then
      match takeDigits cs with
      | (d, r) => (c :: d, r)
    else ([], c :: cs)

def digitsToNat (ds : List Char) : Nat :=
  ds.foldl (fun a c => a * 10 + (c.toNat - 48)) 0

def parseNumber : List Char → Option (Json × List Char)
  | '-' :: cs =>
    match takeDigits cs with
    | ([], _) => none
    | (d, r) => some (Json.num (-(digitsToNat d : Int)), r)
  | cs =>
    match takeDigits cs with
    | ([], _) => none
    | (d, r) => some (Json.num (digitsToNat d), r)

def parseMemberWith (pv : List Char → Option (Json × List Char)) (cs : List Char) :
    Option ((String × Json) × List Char) :=
  match skipWs cs with
  | '"' :: rest =>
    match parseStrBody rest with
    | none => none
    | some (k, rest2) =>
      match skipWs rest2 with
      | ':' :: rest3 =>
        match pv (skipWs rest3) with
        | none => none
        | some (v, r) => some ((String.mk k, v), r)
      | _ => none
  | _ => none

def parseMembers (pv : List Char → Option (Json × List Char)) :
    Nat → List Char → Option (List (String × Json) × List Char)
  | 0, _ => none
  | f + 1, cs =>
    match skipWs cs with
    | [] => none
    | c :: rest =>
      if c = rbrace then some ([], rest)
      else if c = ',' then
        match parseMemberWith pv rest with
        | none => none
        | some (kv, rest2) =>
          match parseMembers pv f rest2 with
          | none => none
          | some (kvs, r) => some (kv :: kvs, r)
      else none

def parseElems (pv : List Char → Option (Json × List Char)) :
    Nat → List Char → Option (List Json × List Char)
  | 0, _ => none
  | f + 1, cs =>
    match skipWs cs with
    | [] => none
    | c :: rest =>
      if c = ']' then some ([], rest)
      else if c = ',' then
        match pv (skipWs rest) with
        | none => none
        | some (v, rest2) =>
          match parseElems pv f rest2 with
          | none => none
          | some (vs, r) => some (v :: vs, r)
      else none

def parseVal : Nat → List Char → Option (Json × List Char)
  | 0, _ => none
  | f + 1, cs =>
    match skipWs cs with
    | [] => none
    | c :: rest =>
      if c = lbrace then
        match skipWs rest with
        | [] => none
        | c2 :: rest2 =>
          if c2 = rbrace then some (Json.obj [], rest2)
          else
            match parseMemberWith (parseVal f) (c2 :: rest2) with
            | none => none
            | some (kv, rest3) =>
              match parseMembers (parseVal f) (rest3.length + 1) rest3 with
              | none => none
              | some (kvs, r) => some (Json.obj (kv :: kvs), r)
      else if c = '[' then
        match skipWs rest with
        | [] => none
        | c2 :: rest2 =>
          if c2 = ']' then some (Json.arr [], rest2)
          else
            match parseVal f (c2 :: rest2) with
            | none => none
            | some (v, rest3) =>
              match parseElems (parseVal f) (rest3.length + 1) rest3 with
              | none => none
              | some (vs, r) => some (Json.arr (v :: vs), r)
      else if c = '"' then
        match parseStrBody rest with
        | none => none
        | some (s, r) => some (Json.str (String.mk s), r)
      else if c = 't' then
        match rest with
        | 'r' :: 'u' :: 'e' :: r => some (Json.bool true, r)
        | _ => none
      else if c = 'f' then
        match rest with
        | 'a' :: 'l' :: 's' :: 'e' :: r => some (Json.bool false, r)
        | _ => none
      else if c = 'n' then
        match rest with
        | 'u' :: 'l' :: 'l' :: r => some (Json.null, r)
        | _ => none
      else parseNumber (c :: rest)

def jsonParse (s : String) : Option Json :=
  match parseVal (s.data.length + 1) s.data with
  | none => none
  | some (v, rest) => if skipWs rest = [] then some v else none

def firstIdxOf (c : Char) : List Char → Option Nat
  | [] => none
  | a :: as => if a = c then some 0 else (firstIdxOf c as).map (· + 1)

def lastIdxOf (c : Char) : List Char → Option Nat
  | [] => none
  | a :: as =>
    match lastIdxOf c as with
    | some k => some (k + 1)
    | none => if a = c then some 0 else none

def extractJson (s : String) : Option String :=
  match firstIdxOf lbrace s.data, lastIdxOf rbrace s.data with
  | some i, some j =>
    if i < j then some (String.mk ((s.data.drop i).take (j - i + 1))) else none
  | _, _ => none

def fallbackPlan (text : String) : Json :=
  Json.obj [("phase", Json.str "planning"), ("tasks", Json.arr []),
    ("summary", Json.str (strTake text 200)), ("checkpoint", Json.bool true),
    ("next_action", Json.str "Review and provide clearer instructions")]

def parseResponse (text : String) : Json :=
  match jsonParse text with
  | some v => v
  | none =>
    match extractJson text with
    | some sub =>
      match jsonParse sub with
      | some v => v
      | none => fallbackPlan text
    | none => fallbackPlan text

def lookupLast (k : String) : List (String × Json) → Option Json
  | [] => none
  | (k2, v) :: rest =>
    match lookupLast k rest with
    | some r => some r
    | none => if k2 = k then some v else none

def Json.getKey : Json → String → Option Json
  | Json.obj fs, k => lookupLast k fs
  | _, _ => none

def Json.truthy : Json → Bool
  | Json.null => false
  | Json.bool b => b
  | Json.num n => n != 0
  | Json.str s => s != ""
  | Json.arr l => !l.isEmpty
  | Json.obj l => !l.isEmpty

def truthyOpt : Option Json → Bool
  | none => false
  | some j => j.truthy

def isPhase (p : Option Json) (s : String) : Bool :=
  match p with
  | some (Json.str t) => t == s
  | _ => false

def asStr : Option Json → Option String
  | some (Json.str s) => some s
  | _ => none

structure PlanTask where
  type : Option String
  content : Option String
  filename : Option String
  description : Option String

structure TaskOutcome where
  success : Bool
  output : String
  error : Option String

inductive ProcResult where
  | completed (returncode : Int) (stdout : String) (stderr : String) : ProcResult
  | timedOut : ProcResult
  | raised (msg : String) : ProcResult

structure ExecEnv where
  auditWrite : Except String Unit
  procRun : ProcResult
  fileWrite : Except String Unit

def execute_claude_code_task (task : PlanTask) (env : ExecEnv) : Except String TaskOutcome :=
  let taskType := task.type.getD "unknown"
  if taskType = "claude_code_prompt" then
    match task.content with
    | none => Except.error "KeyError: content"
    | some _ =>
      match env.auditWrite with
      | Except.error e => Except.error e
      | Except.ok _ =>
        match env.procRun with
        | ProcResult.completed rc out err =>
          Except.ok ⟨rc == 0, strTake out 1000, if err = "" then none else some (strTake err 500)⟩
        | ProcResult.timedOut =>
          Except.ok ⟨false, "", some "Command timed out after 2 minutes"⟩
        | ProcResult.raised m => Except.ok ⟨false, "", some m⟩
  else if taskType = "file_creation" then
    match task.content with
    | none => Except.ok ⟨false, "", some "KeyError: content"⟩
    | some _ =>
      match env.fileWrite with
      | Except.error e => Except.ok ⟨false, "", some e⟩
      | Except.ok _ =>
        Except.ok ⟨true, "Created " ++ task.filename.getD "file_default.txt", none⟩
  else if taskType = "command" then
    match task.content with
    | none => Except.ok ⟨false, "", some "KeyError: content"⟩
    | some _ =>
      match env.procRun with
      | ProcResult.completed rc out err =>
        Except.ok ⟨rc == 0, strTake out 1000, if err = "" then none else some (strTake err 500)⟩
      | ProcResult.timedOut => Except.ok ⟨false, "", some "Command timed out"⟩
      | ProcResult.raised m => Except.ok ⟨false, "", some m⟩
  else
    Except.ok ⟨false, "", some ("Unknown task type: " ++ taskType)⟩

structure TaskResult where
  task : String
  type : Option String
  success : Bool
  output : String
  error : Option String

def mkTaskResult (t : PlanTask) (o : TaskOutcome) : TaskResult :=
  ⟨t.description.getD "Unknown task", t.type, o.success, strTake o.output 200, o.error⟩

def taskOfJson : Json → Option PlanTask
  | Json.obj fs =>
    some ⟨asStr (lookupLast "type" fs), asStr (lookupLast "content" fs),
      asStr (lookupLast "filename" fs), asStr (lookupLast "description" fs)⟩
  | _ => none

def runTasksJson (env : ExecEnv) : List Json → Except String (List TaskResult)
  | [] => Except.ok []
  | j :: rest =>
    match taskOfJson j with
    | none => Except.error "AttributeError: get"
    | some t =>
      match execute_claude_code_task t env with
      | Except.error e => Except.error e
      | Except.ok o =>
        match runTasksJson env rest with
        | Except.error e => Except.error e
        | Except.ok os => Except.ok (mkTaskResult t o :: os)

def tasksOf (fields : List (String × Json)) : Except String (List Json) :=
  match lookupLast "tasks" fields with
  | none => Except.ok []
  | some j =>
    if j.truthy then
      match j with
      | Json.arr l => Except.ok l
      | _ => Except.error "TypeError: tasks value is not a list"
    else Except.ok []

structure Message where
  role : String
  content : String

inductive SvcRes where
  | ok (text : String) : SvcRes
  | exn (msg : String) : SvcRes
  | interrupt : SvcRes

def apiErrorPlan (e : String) : Json :=
  Json.obj [("phase", Json.str "error"), ("tasks", Json.arr []),
    ("summary", Json.str ("API error: " ++ e)), ("checkpoint", Json.bool true)]

def send_to_claude_api (hist : List Message) (message : String) (svcResult : SvcRes) :
    Option (List Message × Json) :=
  match svcResult with
  | SvcRes.interrupt => none
  | SvcRes.exn e => some (hist, apiErrorPlan e)
  | SvcRes.ok text => some (hist ++ [⟨"user", message⟩, ⟨"assistant", text⟩], parseResponse text)

def quoteS : String := "\""

def dumpOptStr : Option String → String
  | none => "null"
  | some s => quoteS ++ s ++ quoteS

def dumpTaskResult (r : TaskResult) : String :=
  lbS ++ quoteS ++ "task" ++ quoteS ++ ": " ++ dumpOptStr (some r.task) ++ ", " ++
    quoteS ++ "type" ++ quoteS ++ ": " ++ dumpOptStr r.type ++ ", " ++
    quoteS ++ "success" ++ quoteS ++ ": " ++ (if r.success then "true" else "false") ++ ", " ++
    quoteS ++ "output" ++ quoteS ++ ": " ++ dumpOptStr (some r.output) ++ ", " ++
    quoteS ++ "error" ++ quoteS ++ ": " ++ dumpOptStr r.error ++ rbS

def dumpTaskResults (rs : List TaskResult) : String :=
  "[" ++ String.intercalate ",\n" (rs.map dumpTaskResult) ++ "]"

def phaseDisplay : Option Json → String
  | some (Json.str s) => s
  | some _ => "non-string"
  | none => "None"

def successCount (results : List TaskResult) : Nat :=
  (results.filter (fun r => r.success)).length

def feedbackMessage (phase : Option Json) (results : List TaskResult) : String :=
  "Task execution results for phase " ++ squote ++ phaseDisplay phase ++ squote ++
    ":\n\nSuccess rate: " ++ toString (successCount results) ++ "/" ++
    toString results.length ++ " tasks succeeded\n\nResults:\n" ++
    dumpTaskResults results ++
    "\n\nBased on these results:\n1. If tasks failed, provide fixes in the next iteration\n2. If this phase succeeded, move to the next phase\n3. If all requirements are met, set phase to " ++
    squote ++ "complete" ++ squote ++ "\n4. Always provide clear next steps"

def replacementMsg (newInput : String) (results : List TaskResult) : String :=
  "User provided new instructions: " ++ newInput ++ "\n\nPrevious task results:\n" ++
    dumpTaskResults results ++ "\n\nPlease adjust the plan accordingly and provide next tasks."

def voiceReplacementMsg (newInput : String) (results : List TaskResult) : String :=
  "User provided new voice instructions: " ++ newInput ++ "\n\nPrevious task results:\n" ++
    dumpTaskResults results ++ "\n\nPlease adjust the plan accordingly and provide next tasks."

def initialPlanningMsg (initialInput : String) : String :=
  "I need help with the following project:\n\n" ++ initialInput ++
    "\n\nPlease analyze this request and provide a structured plan with specific tasks.\nFirst, set phase to " ++
    squote ++ "planning" ++ squote ++
    " and outline what needs to be done.\nThen provide executable tasks for Claude Code."

def strLower (s : String) : String := String.mk (s.data.map Char.toLower)

def pyWs (c : Char) : Bool :=
  c == ' ' || c == '\t' || c == '\n' || c == '\r' || c == Char.ofNat 11 || c == Char.ofNat 12

def strStrip (s : String) : String :=
  String.mk (((s.data.dropWhile pyWs).reverse.dropWhile pyWs).reverse)

def select_model (current choice : String) : String :=
  if strStrip choice = "1" then "claude-opus-4-1-20250805"
  else if strStrip choice = "2" then "claude-3-opus-20240229"
  else if strStrip choice = "3" then "claude-3-5-sonnet-20241022"
  else if strStrip choice = "4" then "claude-3-haiku-20240307"
  else current

inductive InpRes where
  | str (s : String) : InpRes
  | interrupt : InpRes

inductive CkStep where
  | stop : CkStep
  | interrupt : CkStep
  | proceed (msg : String) (dInp : Nat) (model : String) : CkStep

def checkpointStep (inp : Nat → InpRes) (inpC : Nat) (model : String)
    (phase : Option Json) (results : List TaskResult) : CkStep :=
  match inp inpC with
  | InpRes.interrupt => CkStep.interrupt
  | InpRes.str raw =>
    if strStrip (strLower raw) = "s" then CkStep.stop
    else if strStrip (strLower raw) = "m" then
      match inp (inpC + 1) with
      | InpRes.interrupt => CkStep.interrupt
      | InpRes.str newInput => CkStep.proceed (replacementMsg newInput results) 2 model
    else if strStrip (strLower raw) = "v" then
      match inp (inpC + 1) with
      | InpRes.interrupt => CkStep.interrupt
      | InpRes.str newInput => CkStep.proceed (voiceReplacementMsg newInput results) 2 model
    else if strStrip (strLower raw) = "r" then
      match inp (inpC + 1) with
      | InpRes.interrupt => CkStep.interrupt
      | InpRes.str _ => CkStep.proceed (feedbackMessage phase results) 2 model
    else if strStrip (strLower raw) = "o" then
      match inp (inpC + 1) with
      | InpRes.interrupt => CkStep.interrupt
      | InpRes.str mc => CkStep.proceed (feedbackMessage phase results) 2 (select_model model mc)
    else CkStep.proceed (feedbackMessage phase results) 1 model

inductive ExitKind where
  | complete : ExitKind
  | errPhase : ExitKind
  | stopped : ExitKind
  | boundReached : ExitKind
  | interrupted : ExitKind
  | fatal : ExitKind
  | noInput : ExitKind
deriving DecidableEq

structure PassLog where
  iter : Nat
  phase : Option Json
  tasks : List Json
  results : List TaskResult
  sent : Option String

structure RunResult where
  exitKind : ExitKind
  iterations : Nat
  requests : Nat
  history : List Message
  passLog : List PassLog
  counterTrace : List Nat
  maxIterWarning : Bool
  summarySaved : Bool

def max_iterations : Nat := 15

def finishRun (k : ExitKind) (it req : Nat) (hist : List Message) : RunResult :=
  ⟨k, it, req, hist, [], [], decide (max_iterations ≤ it), true⟩

def abortRun (k : ExitKind) (it req : Nat) (hist : List Message) : RunResult :=
  ⟨k, it, req, hist, [], [], false, false⟩

def addTrace (n : Nat) (r : RunResult) : RunResult :=
  { r with counterTrace := n :: r.counterTrace }

def addLog (p : PassLog) (r : RunResult) : RunResult :=
  { r with passLog := p :: r.passLog }

def loopGo (svc : Nat → SvcRes) (inp : Nat → InpRes) (env : ExecEnv) :
    Nat → Nat → List Message → Json → Nat → Nat → String → RunResult
  | 0, it, hist, _, req, _, _ => finishRun ExitKind.boundReached it req hist
  | fuel + 1, it, hist, resp, req, inpC, model =>
    match resp with
    | Json.obj fields =>
      if isPhase (lookupLast "phase" fields) "complete" then
        addTrace (it + 1) (finishRun ExitKind.complete (it + 1) req hist)
      else if isPhase (lookupLast "phase" fields) "error" then
        addTrace (it + 1) (finishRun ExitKind.errPhase (it + 1) req hist)
      else
        match tasksOf fields with
        | Except.error _ => addTrace (it + 1) (abortRun ExitKind.fatal (it + 1) req hist)
        | Except.ok taskJsons =>
          match runTasksJson env taskJsons with
          | Except.error _ => addTrace (it + 1) (abortRun ExitKind.fatal (it + 1) req hist)
          | Except.ok results =>
            match (if truthyOpt (lookupLast "checkpoint" fields) then
                     checkpointStep inp inpC model (lookupLast "phase" fields) results
                   else CkStep.proceed (feedbackMessage (lookupLast "phase" fields) results) 0 model) with
            | CkStep.stop =>
              addTrace (it + 1) (addLog ⟨it + 1, lookupLast "phase" fields, taskJsons, results, none⟩
                (finishRun ExitKind.stopped (it + 1) req hist))
            | CkStep.interrupt =>
              addTrace (it + 1) (addLog ⟨it + 1, lookupLast "phase" fields, taskJsons, results, none⟩
                (abortRun ExitKind.interrupted (it + 1) req hist))
            | CkStep.proceed msg dInp model2 =>
              match send_to_claude_api hist msg (svc req) with
              | none =>
                addTrace (it + 1) (addLog ⟨it + 1, lookupLast "phase" fields, taskJsons, results, none⟩
                  (abortRun ExitKind.interrupted (it + 1) req hist))
              | some (hist2, resp2) =>
                addTrace (it + 1) (addLog ⟨it + 1, lookupLast "phase" fields, taskJsons, results, some msg⟩
                  (loopGo svc inp env fuel (it + 1) hist2 resp2 (req + 1) (inpC + dInp) model2))
    | _ => addTrace (it + 1) (abortRun ExitKind.fatal (it + 1) req hist)

def run_orchestrated_session (svc : Nat → SvcRes) (inp : Nat → InpRes) (env : ExecEnv)
    (model : String) (initialInput : String) : RunResult :=
  if initialInput = "" then ⟨ExitKind.noInput, 0, 0, [], [], [], false, false⟩
  else
    match send_to_claude_api [] (initialPlanningMsg initialInput) (svc 0) with
    | none => abortRun ExitKind.interrupted 0 0 []
    | some (hist, resp) => loopGo svc inp env max_iterations 0 hist resp 1 0 model

def env0 : ExecEnv := ⟨Except.ok (), ProcResult.completed 0 "" "", Except.ok ()⟩

def msgAllowed (ph : Option Json) (res : List TaskResult) (m : String) : Prop :=
  m = feedbackMessage ph res ∨ (∃ s, m = replacementMsg s res) ∨
    (∃ s, m = voiceReplacementMsg s res)

def normalExit : ExitKind → Bool
  | ExitKind.complete => true
  | ExitKind.errPhase => true
  | ExitKind.stopped => true
  | ExitKind.boundReached => true
  | _ => false

def LoopInv (env : ExecEnv) (fuel it : Nat) (hist : List Message) (r : RunResult) : Prop :=
  r.counterTrace = List.range' (it + 1) r.counterTrace.length
  ∧ r.iterations = it + r.counterTrace.length
  ∧ r.counterTrace.length ≤ fuel
  ∧ (r.exitKind = ExitKind.boundReached → r.counterTrace.length = fuel)
  ∧ hist <+: r.history
  ∧ r.summarySaved = normalExit r.exitKind
  ∧ (r.summarySaved = true → r.maxIterWarning = decide (max_iterations ≤ r.iterations))
  ∧ (∀ p ∈ r.passLog, runTasksJson env p.tasks = Except.ok p.results
      ∧ ∀ m, p.sent = some m → msgAllowed p.phase p.results m)

theorem strData_append (s t : String) : (s ++ t).data = s.data ++ t.data := rfl

theorem firstIdxOf_prefix_none {c : Char} :
    ∀ (P R : List Char), (∀ a ∈ P, a ≠ c) → firstIdxOf c (P ++ c :: R) = some P.length := by
  intro P
  induction P with
  | nil => intro R _; simp [firstIdxOf]
  | cons a P ih =>
    intro R h
    have ha : a ≠ c := h a (List.mem_cons_self a P)
    have hP : ∀ b ∈ P, b ≠ c := fun b hb => h b (List.mem_cons_of_mem a hb)
    simp [firstIdxOf, ha, ih R hP]

theorem lastIdxOf_not_mem {c : Char} :
    ∀ (L : List Char), (∀ a ∈ L, a ≠ c) → lastIdxOf c L = none := by
  intro L
  induction L with
  | nil => intro _; rfl
  | cons a L ih =>
    intro h
    have ha : a ≠ c := h a (List.mem_cons_self a L)
    have hL : ∀ b ∈ L, b ≠ c := fun b hb => h b (List.mem_cons_of_mem a hb)
    simp only [lastIdxOf, ih hL, if_neg ha]

theorem lastIdxOf_append {c : Char} :
    ∀ (X Q : List Char), (∀ a ∈ Q, a ≠ c) → lastIdxOf c (X ++ c :: Q) = some X.length := by
  intro X
  induction X with
  | nil =>
    intro Q h
    simp [lastIdxOf, lastIdxOf_not_mem Q h]
  | cons a X ih =>
    intro Q h
    simp [lastIdxOf, ih Q h]

theorem dropLenAppend {α : Type} : ∀ (P R : List α), (P ++ R).drop P.length = R := by
  intro P
  induction P with
  | nil => intro R; rfl
  | cons a P ih => intro R; simp [ih R]

theorem takeLenAppend {α : Type} :
    ∀ (M R : List α) (n : Nat), (M ++ R).take (M.length + n) = M ++ R.take n := by
  intro M
  induction M with
  | nil => intro R n; simp
  | cons a M ih =>
    intro R n
    have h1 : (a :: M).length + n = (M.length + n) + 1 := by simp [List.length_cons]; omega
    rw [List.cons_append, h1, List.take_succ_cons, ih R n, List.cons_append]

theorem extractJson_wrapped (pre mid post : String)
    (hpre : ∀ a ∈ pre.data, a ≠ lbrace) (hpost : ∀ a ∈ post.data, a ≠ rbrace) :
    extractJson (pre ++ lbS ++ mid ++ rbS ++ post) = some (lbS ++ mid ++ rbS) := by
  have hdata : (pre ++ lbS ++ mid ++ rbS ++ post).data
      = pre.data ++ lbrace :: (mid.data ++ rbrace :: post.data) := by
    simp [strData_append, lbS, rbS, String.singleton]
  have hdata2 : pre.data ++ lbrace :: (mid.data ++ rbrace :: post.data)
      = (pre.data ++ lbrace :: mid.data) ++ rbrace :: post.data := by
    simp
  unfold extractJson
  rw [hdata, firstIdxOf_prefix_none pre.data _ hpre, hdata2,
    lastIdxOf_append _ post.data hpost, ← hdata2]
  have hlen : (pre.data ++ lbrace :: mid.data).length = pre.data.length + (mid.data.length + 1) := by
    simp
  rw [hlen]
  dsimp only
  rw [if_pos (by omega)]
  have harith : pre.data.length + (mid.data.length + 1) - pre.data.length + 1 = mid.data.length + 2 := by
    omega
  rw [harith, dropLenAppend]
  have htake : (lbrace :: (mid.data ++ rbrace :: post.data)).take (mid.data.length + 2)
      = lbrace :: (mid.data ++ [rbrace]) := by
    rw [show mid.data.length + 2 = (mid.data.length + 1) + 1 from rfl, List.take_succ_cons,
      takeLenAppend mid.data (rbrace :: post.data) 1]
    rfl
  rw [htake]
  have hres : (lbS ++ mid ++ rbS).data = lbrace :: (mid.data ++ [rbrace]) := by
    simp [strData_append, lbS, rbS, String.singleton]
  rw [← hres]

/-- C8: an oracle response made of non-structured wrapping text around exactly one
well-formed JSON payload is located by the bracket search and parsed; the loop
receives the parsed payload, not the fallback plan. -/
theorem C8_wrapped_payload_parsed (pre mid post : String) (v : Json)
    (hpre : ∀ a ∈ pre.data, a ≠ lbrace) (hpost : ∀ a ∈ post.data, a ≠ rbrace)
    (hwhole : jsonParse (pre ++ lbS ++ mid ++ rbS ++ post) = none)
    (hpay : jsonParse (lbS ++ mid ++ rbS) = some v) :
    parseResponse (pre ++ lbS ++ mid ++ rbS ++ post) = v := by
  unfold parseResponse
  rw [hwhole, extractJson_wrapped pre mid post hpre hpost]
  dsimp only
  rw [hpay]

/-- C8 witness: the concrete example from the specification. -/
theorem C8_wrapped_payload_parsed_witness :
    parseResponse "Here is the plan: \x7b\"phase\":\"planning\",\"tasks\":[],\"checkpoint\":false,\"summary\":\"ok\"\x7d"
      = Json.obj [("phase", Json.str "planning"), ("tasks", Json.arr []),
          ("checkpoint", Json.bool false), ("summary", Json.str "ok")] ∧
    (parseResponse "Here is the plan: \x7b\"phase\":\"planning\",\"tasks\":[],\"checkpoint\":false,\"summary\":\"ok\"\x7d").getKey "phase"
      = some (Json.str "planning") := by
  refine ⟨?_, rfl⟩
  exact C8_wrapped_payload_parsed "Here is the plan: "
    "\"phase\":\"planning\",\"tasks\":[],\"checkpoint\":false,\"summary\":\"ok\"" "" _
    (by decide) (by decide) rfl rfl

/-- C6 counterexample: the empty response text is parseable by neither method, and
the fallback summary it produces is the empty string, so the summary is not the
non-empty excerpt the claim requires. -/
theorem C6_unparseable_counterexample :
    jsonParse "" = none ∧ extractJson "" = none ∧
    ¬ (∀ s, (parseResponse "").getKey "summary" = some (Json.str s) → s ≠ "") :=
  ⟨rfl, rfl, fun h => h "" rfl rfl⟩

/-- C6 amended: a response text parseable by neither method yields, without raising,
the synthetic fallback plan with phase planning, empty tasks, checkpoint true, the
next-action instruction, and summary equal to the first 200 characters of the raw
text, which is non-empty whenever the raw text is non-empty. -/
theorem C6_unparseable_fallback (text : String)
    (h1 : jsonParse text = none)
    (h2 : ∀ sub, extractJson text = some sub → jsonParse sub = none) :
    parseResponse text = Json.obj [("phase", Json.str "planning"), ("tasks", Json.arr []),
      ("summary", Json.str (strTake text 200)), ("checkpoint", Json.bool true),
      ("next_action", Json.str "Review and provide clearer instructions")]
    ∧ (text ≠ "" → strTake text 200 ≠ "") := by
  constructor
  · unfold parseResponse
    rw [h1]
    dsimp only
    cases hx : extractJson text with
    | none => rfl
    | some sub =>
      dsimp only
      rw [h2 sub hx]
      rfl
  · intro hne hcontra
    apply hne
    have hdat : text.data.take 200 = [] := congrArg String.data hcontra
    have : text.data = [] := by
      rcases List.take_eq_nil_iff.mp hdat with h | h
      · exact absurd h (by decide)
      · exact h
    cases text with
    | mk l => simp_all

/-- C6 witness: a plain word is parseable by neither method and yields the fallback. -/
theorem C6_unparseable_fallback_witness :
    parseResponse "hello" = Json.obj [("phase", Json.str "planning"), ("tasks", Json.arr []),
      ("summary", Json.str (strTake "hello" 200)), ("checkpoint", Json.bool true),
      ("next_action", Json.str "Review and provide clearer instructions")]
    ∧ strTake "hello" 200 ≠ "" := by
  have h := C6_unparseable_fallback "hello" rfl
    (fun sub hsub => by rw [show extractJson "hello" = none from rfl] at hsub; cases hsub)
  exact ⟨h.1, h.2 (by decide)⟩

/-- C5: a claude_code_prompt task with no content field makes the executor raise
the key error out of the executor instead of capturing it in the outcome; the
audit write of the prompt happens before the try block in the source. -/
theorem C5_prompt_missing_content_raises :
    execute_claude_code_task ⟨some "claude_code_prompt", none, none, some "run prompt"⟩ env0
      = Except.error "KeyError: content" := rfl

/-- C9 counterexample: an unrecognized task type yields the message with a capital
U, not the lowercase message stated in the claim. -/
theorem C9_unknown_type_counterexample :
    execute_claude_code_task ⟨some "foobar", some "x", none, none⟩ env0
      = Except.ok ⟨false, "", some "Unknown task type: foobar"⟩ ∧
    "Unknown task type: foobar" ≠ "unknown task type: foobar" :=
  ⟨rfl, by decide⟩

/-- C9 amended: a task whose type is none of the three recognized types always
returns the structured failure outcome with error message Unknown task type
followed by the type, and never raises. -/
theorem C9_unknown_type_outcome (task : PlanTask) (env : ExecEnv)
    (h1 : task.type.getD "unknown" ≠ "claude_code_prompt")
    (h2 : task.type.getD "unknown" ≠ "file_creation")
    (h3 : task.type.getD "unknown" ≠ "command") :
    execute_claude_code_task task env
      = Except.ok ⟨false, "", some ("Unknown task type: " ++ task.type.getD "unknown")⟩ := by
  unfold execute_claude_code_task
  simp [h1, h2, h3]

/-- C9 witness: the amended statement at a concrete unrecognized type. -/
theorem C9_unknown_type_outcome_witness :
    execute_claude_code_task ⟨some "foobar2", some "x", none, none⟩ env0
      = Except.ok ⟨false, "", some ("Unknown task type: " ++
          (some "foobar2" : Option String).getD "unknown")⟩ :=
  C9_unknown_type_outcome ⟨some "foobar2", some "x", none, none⟩ env0
    (by decide) (by decide) (by decide)

theorem checkpointStep_proceed (inp : Nat → InpRes) (inpC : Nat) (model : String)
    (phase : Option Json) (results : List TaskResult) (msg : String) (d : Nat) (m2 : String)
    (h : checkpointStep inp inpC model phase results = CkStep.proceed msg d m2) :
    msgAllowed phase results msg := by
  unfold checkpointStep at h
  cases hi : inp inpC with
  | interrupt => rw [hi] at h; cases h
  | str raw =>
    rw [hi] at h
    dsimp only at h
    by_cases hs : strStrip (strLower raw) = "s"
    · rw [if_pos hs] at h; cases h
    · rw [if_neg hs] at h
      by_cases hm : strStrip (strLower raw) = "m"
      · rw [if_pos hm] at h
        cases hi2 : inp (inpC + 1) with
        | interrupt => rw [hi2] at h; cases h
        | str ni =>
          rw [hi2] at h
          injection h with h1 h2 h3
          exact Or.inr (Or.inl ⟨ni, h1.symm⟩)
      · rw [if_neg hm] at h
        by_cases hv : strStrip (strLower raw) = "v"
        · rw [if_pos hv] at h
          cases hi2 : inp (inpC + 1) with
          | interrupt => rw [hi2] at h; cases h
          | str ni =>
            rw [hi2] at h
            injection h with h1 h2 h3
            exact Or.inr (Or.inr ⟨ni, h1.symm⟩)
        · rw [if_neg hv] at h
          by_cases hr : strStrip (strLower raw) = "r"
          · rw [if_pos hr] at h
            cases hi2 : inp (inpC + 1) with
            | interrupt => rw [hi2] at h; cases h
            | str ni =>
              rw [hi2] at h
              injection h with h1 h2 h3
              exact Or.inl h1.symm
          · rw [if_neg hr] at h
            by_cases ho : strStrip (strLower raw) = "o"
            · rw [if_pos ho] at h
              cases hi2 : inp (inpC + 1) with
              | interrupt => rw [hi2] at h; cases h
              | str ni =>
                rw [hi2] at h
                injection h with h1 h2 h3
                exact Or.inl h1.symm
            · rw [if_neg ho] at h
              injection h with h1 h2 h3
              exact Or.inl h1.symm

/-- C4 counterexample: at a checkpoint, the unrecognized operator input x does not
re-prompt; the loop advances and issues the next oracle request, after which the
session runs to completion. The claim that the loop never advances on unrecognized
input is therefore false. -/
theorem C4_unrecognized_counterexample :
    (run_orchestrated_session
      (fun n => if n = 0 then SvcRes.ok "\x7b\"phase\": \"planning\", \"checkpoint\": true\x7d"
                else SvcRes.ok "\x7b\"phase\": \"complete\"\x7d")
      (fun _ => InpRes.str "x") env0 "claude-opus-4-1-20250805" "build").requests = 2 ∧
    (run_orchestrated_session
      (fun n => if n = 0 then SvcRes.ok "\x7b\"phase\": \"planning\", \"checkpoint\": true\x7d"
                else SvcRes.ok "\x7b\"phase\": \"complete\"\x7d")
      (fun _ => InpRes.str "x") env0 "claude-opus-4-1-20250805" "build").iterations = 2 ∧
    (run_orchestrated_session
      (fun n => if n = 0 then SvcRes.ok "\x7b\"phase\": \"planning\", \"checkpoint\": true\x7d"
                else SvcRes.ok "\x7b\"phase\": \"complete\"\x7d")
      (fun _ => InpRes.str "x") env0 "claude-opus-4-1-20250805" "build").exitKind = ExitKind.complete :=
  ⟨rfl, rfl, rfl⟩

/-- C4 amended: operator input whose lowercased stripped form is none of the
recognized choices s, m, v, r, o is not re-prompted; the checkpoint treats it
exactly like continue, and the loop proceeds to the next oracle request carrying
the default feedback message. -/
theorem C4_unrecognized_continue (inp : Nat → InpRes) (inpC : Nat) (model : String)
    (phase : Option Json) (results : List TaskResult) (raw : String)
    (hraw : inp inpC = InpRes.str raw)
    (h1 : strStrip (strLower raw) ≠ "s") (h2 : strStrip (strLower raw) ≠ "m")
    (h3 : strStrip (strLower raw) ≠ "v") (h4 : strStrip (strLower raw) ≠ "r")
    (h5 : strStrip (strLower raw) ≠ "o") :
    checkpointStep inp inpC model phase results
      = CkStep.proceed (feedbackMessage phase results) 1 model := by
  unfold checkpointStep
  rw [hraw]
  dsimp only
  rw [if_neg h1, if_neg h2, if_neg h3, if_neg h4, if_neg h5]

/-- C4 witness: the amended statement at the concrete unrecognized input x. -/
theorem C4_unrecognized_continue_witness :
    checkpointStep (fun _ => InpRes.str "x") 0 "claude-opus-4-1-20250805"
        (some (Json.str "planning")) []
      = CkStep.proceed (feedbackMessage (some (Json.str "planning")) []) 1
          "claude-opus-4-1-20250805" :=
  C4_unrecognized_continue (fun _ => InpRes.str "x") 0 "claude-opus-4-1-20250805"
    (some (Json.str "planning")) [] "x" rfl
    (by decide) (by decide) (by decide) (by decide) (by decide)

theorem sendExtendsHist (hist : List Message) (msg : String) (sr : SvcRes)
    (hist2 : List Message) (j : Json)
    (h : send_to_claude_api hist msg sr = some (hist2, j)) : hist <+: hist2 := by
  cases sr with
  | interrupt => simp [send_to_claude_api] at h
  | exn e =>
    simp [send_to_claude_api] at h
    rw [← h.1]
  | ok text =>
    simp [send_to_claude_api] at h
    rw [← h.1]
    exact List.prefix_append _ _

theorem runTasksJson_ok (env : ExecEnv) :
    ∀ (js : List Json) (rs : List TaskResult), runTasksJson env js = Except.ok rs →
      rs.length = js.length
      ∧ ∀ i (hi : i < js.length) (hri : i < rs.length),
          some (rs.get ⟨i, hri⟩) = (taskOfJson (js.get ⟨i, hi⟩)).bind
            (fun t => (execute_claude_code_task t env).toOption.map (mkTaskResult t)) := by
  intro js
  induction js with
  | nil =>
    intro rs h
    simp [runTasksJson] at h
    subst h
    exact ⟨rfl, fun i hi _ => absurd hi (Nat.not_lt_zero i)⟩
  | cons j js ih =>
    intro rs h
    unfold runTasksJson at h
    cases ht : taskOfJson j with
    | none => rw [ht] at h; dsimp only at h; cases h
    | some t =>
      rw [ht] at h
      dsimp only at h
      cases he : execute_claude_code_task t env with
      | error e => rw [he] at h; dsimp only at h; cases h
      | ok o =>
        rw [he] at h
        dsimp only at h
        cases hrest : runTasksJson env js with
        | error e => rw [hrest] at h; dsimp only at h; cases h
        | ok os =>
          rw [hrest] at h
          dsimp only at h
          injection h with h2
          subst h2
          obtain ⟨ihl, ihe⟩ := ih os hrest
          refine ⟨by simp [ihl], ?_⟩
          intro i hi hri
          cases i with
          | zero => simp [ht, he, Except.toOption]
          | succ k =>
            have hik : k < js.length := by simpa using hi
            have hrk : k < os.length := by simpa using hri
            simpa using ihe k hik hrk

theorem loopInv_fuelZero (env : ExecEnv) (it req : Nat) (hist : List Message) :
    LoopInv env 0 it hist (finishRun ExitKind.boundReached it req hist) :=
  ⟨rfl, rfl, Nat.le_refl 0, fun _ => rfl, List.prefix_refl hist, rfl, fun _ => rfl,
    fun p hp => absurd hp (List.not_mem_nil p)⟩

theorem loopInv_finish (env : ExecEnv) (fuel it req : Nat) (hist : List Message) (k : ExitKind)
    (hk : normalExit k = true) (hkb : k ≠ ExitKind.boundReached) :
    LoopInv env (fuel + 1) it hist (addTrace (it + 1) (finishRun k (it + 1) req hist)) :=
  ⟨rfl, rfl, Nat.succ_le_succ (Nat.zero_le fuel), fun h => absurd h hkb,
    List.prefix_refl hist, hk.symm, fun _ => rfl,
    fun p hp => absurd hp (List.not_mem_nil p)⟩

theorem loopInv_abort (env : ExecEnv) (fuel it req : Nat) (hist : List Message) (k : ExitKind)
    (hk : normalExit k = false) :
    LoopInv env (fuel + 1) it hist (addTrace (it + 1) (abortRun k (it + 1) req hist)) := by
  refine ⟨rfl, rfl, Nat.succ_le_succ (Nat.zero_le fuel), ?_, List.prefix_refl hist,
    hk.symm, ?_, fun p hp => absurd hp (List.not_mem_nil p)⟩
  · intro h
    have h2 : k = ExitKind.boundReached := h
    rw [h2] at hk
    simp [normalExit] at hk
  · intro h
    have h2 : (false : Bool) = true := h
    cases h2

theorem loopInv_finishLog (env : ExecEnv) (fuel it req : Nat) (hist : List Message)
    (k : ExitKind) (p : PassLog) (hk : normalExit k = true) (hkb : k ≠ ExitKind.boundReached)
    (hp1 : runTasksJson env p.tasks = Except.ok p.results) (hp2 : p.sent = none) :
    LoopInv env (fuel + 1) it hist (addTrace (it + 1) (addLog p (finishRun k (it + 1) req hist))) := by
  refine ⟨rfl, rfl, Nat.succ_le_succ (Nat.zero_le fuel), fun h => absurd h hkb,
    List.prefix_refl hist, hk.symm, fun _ => rfl, ?_⟩
  intro q hq
  replace hq : q ∈ [p] := hq
  rw [List.mem_singleton] at hq
  subst hq
  exact ⟨hp1, fun m hm => by rw [hp2] at hm; cases hm⟩

theorem loopInv_abortLog (env : ExecEnv) (fuel it req : Nat) (hist : List Message)
    (k : ExitKind) (p : PassLog) (hk : normalExit k = false)
    (hp1 : runTasksJson env p.tasks = Except.ok p.results) (hp2 : p.sent = none) :
    LoopInv env (fuel + 1) it hist (addTrace (it + 1) (addLog p (abortRun k (it + 1) req hist))) := by
  refine ⟨rfl, rfl, Nat.succ_le_succ (Nat.zero_le fuel), ?_, List.prefix_refl hist,
    hk.symm, ?_, ?_⟩
  · intro h
    have h2 : k = ExitKind.boundReached := h
    rw [h2] at hk
    simp [normalExit] at hk
  · intro h
    have h2 : (false : Bool) = true := h
    cases h2
  intro q hq
  replace hq : q ∈ [p] := hq
  rw [List.mem_singleton] at hq
  subst hq
  exact ⟨hp1, fun m hm => by rw [hp2] at hm; cases hm⟩

theorem loopInv_stepRec (env : ExecEnv) (fuel it req : Nat) (hist hist2 : List Message)
    (p : PassLog) (r2 : RunResult) (msg : String)
    (hp1 : runTasksJson env p.tasks = Except.ok p.results)
    (hp2 : p.sent = some msg) (hmsg : msgAllowed p.phase p.results msg)
    (hpre : hist <+: hist2)
    (hinv : LoopInv env fuel (it + 1) hist2 r2) :
    LoopInv env (fuel + 1) it hist (addTrace (it + 1) (addLog p r2)) := by
  obtain ⟨h1, h2, h3, h4, h5, h6, h7, h8⟩ := hinv
  refine ⟨?_, ?_, ?_, ?_, ?_, ?_, ?_, ?_⟩
  · show (it + 1) :: r2.counterTrace
      = List.range' (it + 1) ((it + 1) :: r2.counterTrace).length
    rw [List.length_cons]
    exact congrArg (List.cons (it + 1)) h1
  · show r2.iterations = it + ((it + 1) :: r2.counterTrace).length
    rw [List.length_cons, h2]
    omega
  · show ((it + 1) :: r2.counterTrace).length ≤ fuel + 1
    rw [List.length_cons]
    exact Nat.succ_le_succ h3
  · intro hk
    show ((it + 1) :: r2.counterTrace).length = fuel + 1
    rw [List.length_cons, h4 hk]
  · exact hpre.trans h5
  · exact h6
  · exact h7
  · intro q hq
    rcases List.mem_cons.mp hq with hq1 | hq2
    · subst hq1
      refine ⟨hp1, fun m hm => ?_⟩
      rw [hp2] at hm
      injection hm with hmm
      rw [← hmm]
      exact hmsg
    · exact h8 q hq2

theorem loopGo_inv (svc : Nat → SvcRes) (inp : Nat → InpRes) (env : ExecEnv) :
    ∀ (fuel it : Nat) (hist : List Message) (resp : Json) (req inpC : Nat) (model : String),
      LoopInv env fuel it hist (loopGo svc inp env fuel it hist resp req inpC model) := by
  intro fuel
  induction fuel with
  | zero =>
    intro it hist resp req inpC model
    exact loopInv_fuelZero env it req hist
  | succ f ih =>
    intro it hist resp req inpC model
    cases resp with
    | null => exact loopInv_abort env f it req hist ExitKind.fatal rfl
    | bool b => exact loopInv_abort env f it req hist ExitKind.fatal rfl
    | num n => exact loopInv_abort env f it req hist ExitKind.fatal rfl
    | str s => exact loopInv_abort env f it req hist ExitKind.fatal rfl
    | arr l => exact loopInv_abort env f it req hist ExitKind.fatal rfl
    | obj fields =>
      rw [loopGo]
      by_cases hc : isPhase (lookupLast "phase" fields) "complete" = true
      · rw [if_pos hc]
        exact loopInv_finish env f it req hist ExitKind.complete rfl (by decide)
      · rw [if_neg hc]
        by_cases he : isPhase (lookupLast "phase" fields) "error" = true
        · rw [if_pos he]
          exact loopInv_finish env f it req hist ExitKind.errPhase rfl (by decide)
        · rw [if_neg he]
          cases ht : tasksOf fields with
          | error e =>
            exact loopInv_abort env f it req hist ExitKind.fatal rfl
          | ok taskJsons =>
            dsimp only
            cases hr : runTasksJson env taskJsons with
            | error e =>
              exact loopInv_abort env f it req hist ExitKind.fatal rfl
            | ok results =>
              dsimp only
              cases hs : (if truthyOpt (lookupLast "checkpoint" fields) = true then
                    checkpointStep inp inpC model (lookupLast "phase" fields) results
                  else CkStep.proceed (feedbackMessage (lookupLast "phase" fields) results) 0 model) with
              | stop =>
                exact loopInv_finishLog env f it req hist ExitKind.stopped
                  ⟨it + 1, lookupLast "phase" fields, taskJsons, results, none⟩
                  rfl (by decide) hr rfl
              | interrupt =>
                exact loopInv_abortLog env f it req hist ExitKind.interrupted
                  ⟨it + 1, lookupLast "phase" fields, taskJsons, results, none⟩
                  rfl hr rfl
              | proceed msg dInp model2 =>
                dsimp only
                have hmsg : msgAllowed (lookupLast "phase" fields) results msg := by
                  by_cases hck : truthyOpt (lookupLast "checkpoint" fields) = true
                  · rw [if_pos hck] at hs
                    exact checkpointStep_proceed inp inpC model
                      (lookupLast "phase" fields) results msg dInp model2 hs
                  · rw [if_neg hck] at hs
                    injection hs with hs1 hs2 hs3
                    exact Or.inl hs1.symm
                cases hsend : send_to_claude_api hist msg (svc req) with
                | none =>
                  exact loopInv_abortLog env f it req hist ExitKind.interrupted
                    ⟨it + 1, lookupLast "phase" fields, taskJsons, results, none⟩
                    rfl hr rfl
                | some pr =>
                  obtain ⟨hist2, resp2⟩ := pr
                  dsimp only
                  exact loopInv_stepRec env f it req hist hist2
                    ⟨it + 1, lookupLast "phase" fields, taskJsons, results, some msg⟩
                    (loopGo svc inp env f (it + 1) hist2 resp2 (req + 1) (inpC + dInp) model2)
                    msg hr rfl hmsg
                    (sendExtendsHist hist msg (svc req) hist2 resp2 hsend)
                    (ih (it + 1) hist2 resp2 (req + 1) (inpC + dInp) model2)

theorem run_inv (svc : Nat → SvcRes) (inp : Nat → InpRes) (env : ExecEnv)
    (model input : String) :
    LoopInv env max_iterations 0 [] (run_orchestrated_session svc inp env model input) := by
  unfold run_orchestrated_session
  by_cases hin : input = ""
  · rw [if_pos hin]
    exact ⟨rfl, rfl, Nat.zero_le _, fun h => absurd h (by decide), List.prefix_refl [], rfl,
      fun h => absurd h (by decide), fun p hp => absurd hp (List.not_mem_nil p)⟩
  · rw [if_neg hin]
    cases hsend : send_to_claude_api [] (initialPlanningMsg input) (svc 0) with
    | none =>
      dsimp only
      refine ⟨rfl, rfl, Nat.zero_le _, ?_, List.prefix_refl [], rfl, ?_,
        fun p hp => absurd hp (List.not_mem_nil p)⟩
      · intro h
        have h2 : ExitKind.interrupted = ExitKind.boundReached := h
        cases h2
      · intro h
        have h2 : (false : Bool) = true := h
        cases h2
    | some pr =>
      obtain ⟨hist0, resp0⟩ := pr
      dsimp only
      obtain ⟨h1, h2, h3, h4, h5, h6, h7, h8⟩ :=
        loopGo_inv svc inp env max_iterations 0 hist0 resp0 1 0 model
      exact ⟨h1, h2, h3, h4, List.nil_prefix, h6, h7, h8⟩

/-- C1: when the loop observes a response whose phase is complete or error it
terminates at once: no further oracle request is issued, none of the tasks of
that response are executed, and with fuel remaining the exit state matches the
observed phase. -/
theorem C1_terminal_phase_halts (svc : Nat → SvcRes) (inp : Nat → InpRes) (env : ExecEnv)
    (fuel it : Nat) (hist : List Message) (resp : Json) (req inpC : Nat) (model : String)
    (h : resp.getKey "phase" = some (Json.str "complete")
      ∨ resp.getKey "phase" = some (Json.str "error")) :
    (loopGo svc inp env fuel it hist resp req inpC model).requests = req
    ∧ (loopGo svc inp env fuel it hist resp req inpC model).passLog = []
    ∧ (loopGo svc inp env fuel it hist resp req inpC model).iterations ≤ it + 1
    ∧ (0 < fuel →
        ((loopGo svc inp env fuel it hist resp req inpC model).exitKind = ExitKind.complete
        ∨ (loopGo svc inp env fuel it hist resp req inpC model).exitKind = ExitKind.errPhase)) := by
  cases resp with
  | null => rcases h with h | h <;> simp [Json.getKey] at h
  | bool b => rcases h with h | h <;> simp [Json.getKey] at h
  | num n => rcases h with h | h <;> simp [Json.getKey] at h
  | str s => rcases h with h | h <;> simp [Json.getKey] at h
  | arr l => rcases h with h | h <;> simp [Json.getKey] at h
  | obj fields =>
    have h2 : lookupLast "phase" fields = some (Json.str "complete")
        ∨ lookupLast "phase" fields = some (Json.str "error") := h
    cases fuel with
    | zero =>
      exact ⟨rfl, rfl, Nat.le_succ it, fun hf => absurd hf (by omega)⟩
    | succ f =>
      rw [loopGo]
      rcases h2 with hc | he
      · have hc2 : isPhase (lookupLast "phase" fields) "complete" = true := by
          rw [hc]
          simp [isPhase]
        rw [if_pos hc2]
        exact ⟨rfl, rfl, Nat.le_refl _, fun _ => Or.inl rfl⟩
      · have hcf : isPhase (lookupLast "phase" fields) "complete" = false := by
          rw [he]
          simp [isPhase]
        have het : isPhase (lookupLast "phase" fields) "error" = true := by
          rw [he]
          simp [isPhase]
        rw [if_neg (by simp [hcf]), if_pos het]
        exact ⟨rfl, rfl, Nat.le_refl _, fun _ => Or.inr rfl⟩

/-- C1 witness: a complete response with a pending task list halts the loop with
no further requests and no executed tasks. -/
theorem C1_terminal_phase_halts_witness :
    (Json.obj [("phase", Json.str "complete"),
        ("tasks", Json.arr [Json.obj [("type", Json.str "command"),
          ("content", Json.str "echo hi")]])]).getKey "phase" = some (Json.str "complete")
    ∧ (loopGo (fun _ => SvcRes.ok "x") (fun _ => InpRes.str "") env0 15 0 []
        (Json.obj [("phase", Json.str "complete"),
          ("tasks", Json.arr [Json.obj [("type", Json.str "command"),
            ("content", Json.str "echo hi")]])]) 1 0 "claude-opus-4-1-20250805").requests = 1
    ∧ (loopGo (fun _ => SvcRes.ok "x") (fun _ => InpRes.str "") env0 15 0 []
        (Json.obj [("phase", Json.str "complete"),
          ("tasks", Json.arr [Json.obj [("type", Json.str "command"),
            ("content", Json.str "echo hi")]])]) 1 0 "claude-opus-4-1-20250805").passLog = []
    ∧ (loopGo (fun _ => SvcRes.ok "x") (fun _ => InpRes.str "") env0 15 0 []
        (Json.obj [("phase", Json.str "complete"),
          ("tasks", Json.arr [Json.obj [("type", Json.str "command"),
            ("content", Json.str "echo hi")]])]) 1 0 "claude-opus-4-1-20250805").exitKind
        = ExitKind.complete := by
  have h := C1_terminal_phase_halts (fun _ => SvcRes.ok "x") (fun _ => InpRes.str "") env0 15 0 []
    (Json.obj [("phase", Json.str "complete"),
      ("tasks", Json.arr [Json.obj [("type", Json.str "command"),
        ("content", Json.str "echo hi")]])]) 1 0 "claude-opus-4-1-20250805" (Or.inl rfl)
  rcases (h.2.2.2 (by decide)) with hk | hk
  · exact ⟨rfl, h.1, h.2.1, hk⟩
  · exact ⟨rfl, h.1, h.2.1, by cases hk⟩

/-- C2 counterexample: with an oracle that always answers with a planning phase,
the loop halts in the bound-reached state with the iteration counter equal to
max_iterations; the counter never exceeds max_iterations at any pass, so a loop
that only halted once the counter exceeds max_iterations would have run a
sixteenth pass. -/
theorem C2_bound_counterexample :
    (run_orchestrated_session (fun _ => SvcRes.ok "\x7b\"phase\": \"planning\"\x7d")
      (fun _ => InpRes.str "") env0 "claude-opus-4-1-20250805" "build a tool").exitKind
        = ExitKind.boundReached
    ∧ (run_orchestrated_session (fun _ => SvcRes.ok "\x7b\"phase\": \"planning\"\x7d")
        (fun _ => InpRes.str "") env0 "claude-opus-4-1-20250805" "build a tool").iterations
        = max_iterations
    ∧ ¬ max_iterations <
        (run_orchestrated_session (fun _ => SvcRes.ok "\x7b\"phase\": \"planning\"\x7d")
          (fun _ => InpRes.str "") env0 "claude-opus-4-1-20250805" "build a tool").iterations
    ∧ (∀ c ∈ (run_orchestrated_session (fun _ => SvcRes.ok "\x7b\"phase\": \"planning\"\x7d")
          (fun _ => InpRes.str "") env0 "claude-opus-4-1-20250805" "build a tool").counterTrace,
        ¬ max_iterations < c) :=
  ⟨rfl, rfl, by decide, by decide⟩

/-- C2 amended: the iteration counter starts at 0 and rises by exactly 1 per pass,
the loop halts once the counter reaches max_iterations regardless of phase, and
the bound-reached exit raises the warning flag in a state distinct from the error
phase exit. -/
theorem C2_iteration_bound (svc : Nat → SvcRes) (inp : Nat → InpRes) (env : ExecEnv)
    (model input : String) :
    (run_orchestrated_session svc inp env model input).counterTrace
      = List.range' 1 (run_orchestrated_session svc inp env model input).counterTrace.length
    ∧ (run_orchestrated_session svc inp env model input).iterations
      = (run_orchestrated_session svc inp env model input).counterTrace.length
    ∧ (run_orchestrated_session svc inp env model input).iterations ≤ max_iterations
    ∧ ((run_orchestrated_session svc inp env model input).exitKind = ExitKind.boundReached →
        (run_orchestrated_session svc inp env model input).iterations = max_iterations
        ∧ (run_orchestrated_session svc inp env model input).maxIterWarning = true
        ∧ ExitKind.boundReached ≠ ExitKind.errPhase) := by
  obtain ⟨h1, h2, h3, h4, h5, h6, h7, h8⟩ := run_inv svc inp env model input
  refine ⟨h1, by omega, by omega, ?_⟩
  intro hb
  have hl := h4 hb
  have hsv : (run_orchestrated_session svc inp env model input).summarySaved = true := by
    rw [h6, hb]
    decide
  have hw := h7 hsv
  have hit : (run_orchestrated_session svc inp env model input).iterations = max_iterations := by
    omega
  refine ⟨hit, ?_, by decide⟩
  rw [hw, hit]
  decide

/-- C2 witness: the amended bound statement at the concrete always-planning run. -/
theorem C2_iteration_bound_witness :
    (run_orchestrated_session (fun _ => SvcRes.ok "\x7b\"phase\": \"planning\"\x7d")
      (fun _ => InpRes.str "") env0 "claude-opus-4-1-20250805" "fix the bug").exitKind
        = ExitKind.boundReached
    ∧ (run_orchestrated_session (fun _ => SvcRes.ok "\x7b\"phase\": \"planning\"\x7d")
        (fun _ => InpRes.str "") env0 "claude-opus-4-1-20250805" "fix the bug").iterations
        = max_iterations
    ∧ (run_orchestrated_session (fun _ => SvcRes.ok "\x7b\"phase\": \"planning\"\x7d")
        (fun _ => InpRes.str "") env0 "claude-opus-4-1-20250805" "fix the bug").maxIterWarning
        = true := by
  have h := C2_iteration_bound (fun _ => SvcRes.ok "\x7b\"phase\": \"planning\"\x7d")
    (fun _ => InpRes.str "") env0 "claude-opus-4-1-20250805" "fix the bug"
  exact ⟨rfl, (h.2.2.2 rfl).1, (h.2.2.2 rfl).2.1⟩

/-- C3: every pass of the session loop that executes tasks produces exactly one
result per task of the current response, in the same order, and any oracle
request issued at the end of the pass is built from the complete result set. -/
theorem C3_task_results_aligned (svc : Nat → SvcRes) (inp : Nat → InpRes) (env : ExecEnv)
    (model input : String) (p : PassLog)
    (hp : p ∈ (run_orchestrated_session svc inp env model input).passLog) :
    runTasksJson env p.tasks = Except.ok p.results
    ∧ p.results.length = p.tasks.length
    ∧ (∀ i (hi : i < p.tasks.length) (hri : i < p.results.length),
        some (p.results.get ⟨i, hri⟩)
          = (taskOfJson (p.tasks.get ⟨i, hi⟩)).bind
              (fun t => (execute_claude_code_task t env).toOption.map (mkTaskResult t)))
    ∧ (∀ m, p.sent = some m → msgAllowed p.phase p.results m) := by
  obtain ⟨h1, h2, h3, h4, h5, h6, h7, h8⟩ := run_inv svc inp env model input
  obtain ⟨hr, hm⟩ := h8 p hp
  have hlo := runTasksJson_ok env p.tasks p.results hr
  exact ⟨hr, hlo.1, hlo.2, hm⟩

/-- C3 witness: a run whose single pass executes one command task and is then
stopped at the checkpoint; the logged pass has one result for its one task. -/
theorem C3_task_results_aligned_witness :
    (⟨1, some (Json.str "planning"),
        [Json.obj [("type", Json.str "command"), ("content", Json.str "exit 1"),
          ("description", Json.str "fail")]],
        [⟨"fail", some "command", true, "", none⟩], none⟩ : PassLog)
      ∈ (run_orchestrated_session
          (fun _ => SvcRes.ok "\x7b\"phase\": \"planning\", \"checkpoint\": true, \"tasks\": [\x7b\"type\": \"command\", \"content\": \"exit 1\", \"description\": \"fail\"\x7d]\x7d")
          (fun _ => InpRes.str "s") env0 "claude-opus-4-1-20250805" "build").passLog
    ∧ runTasksJson env0
        [Json.obj [("type", Json.str "command"), ("content", Json.str "exit 1"),
          ("description", Json.str "fail")]]
      = Except.ok [⟨"fail", some "command", true, "", none⟩] := by
  have hl : (run_orchestrated_session
      (fun _ => SvcRes.ok "\x7b\"phase\": \"planning\", \"checkpoint\": true, \"tasks\": [\x7b\"type\": \"command\", \"content\": \"exit 1\", \"description\": \"fail\"\x7d]\x7d")
      (fun _ => InpRes.str "s") env0 "claude-opus-4-1-20250805" "build").passLog
      = [⟨1, some (Json.str "planning"),
          [Json.obj [("type", Json.str "command"), ("content", Json.str "exit 1"),
            ("description", Json.str "fail")]],
          [⟨"fail", some "command", true, "", none⟩], none⟩] := rfl
  have hmem : (⟨1, some (Json.str "planning"),
      [Json.obj [("type", Json.str "command"), ("content", Json.str "exit 1"),
        ("description", Json.str "fail")]],
      [⟨"fail", some "command", true, "", none⟩], none⟩ : PassLog)
      ∈ (run_orchestrated_session
          (fun _ => SvcRes.ok "\x7b\"phase\": \"planning\", \"checkpoint\": true, \"tasks\": [\x7b\"type\": \"command\", \"content\": \"exit 1\", \"description\": \"fail\"\x7d]\x7d")
          (fun _ => InpRes.str "s") env0 "claude-opus-4-1-20250805" "build").passLog := by
    rw [hl]
    exact List.mem_singleton_self _
  refine ⟨hmem, ?_⟩
  exact (C3_task_results_aligned
    (fun _ => SvcRes.ok "\x7b\"phase\": \"planning\", \"checkpoint\": true, \"tasks\": [\x7b\"type\": \"command\", \"content\": \"exit 1\", \"description\": \"fail\"\x7d]\x7d")
    (fun _ => InpRes.str "s") env0 "claude-opus-4-1-20250805" "build" _ hmem).1

/-- C7 counterexample: an operator interrupt at the checkpoint prompt unwinds out
of the loop and the session exits without persisting the summary, contradicting
the claim that an abrupt interrupt still triggers summary persistence. -/
theorem C7_interrupt_counterexample :
    (run_orchestrated_session
      (fun _ => SvcRes.ok "\x7b\"phase\": \"planning\", \"checkpoint\": true\x7d")
      (fun _ => InpRes.interrupt) env0 "claude-opus-4-1-20250805" "build").exitKind
        = ExitKind.interrupted
    ∧ (run_orchestrated_session
        (fun _ => SvcRes.ok "\x7b\"phase\": \"planning\", \"checkpoint\": true\x7d")
        (fun _ => InpRes.interrupt) env0 "claude-opus-4-1-20250805" "build").summarySaved
        = false :=
  ⟨rfl, rfl⟩

/-- C7 amended: the summary is persisted exactly on the normal loop exits, namely
completion, the error phase, an operator stop, and the iteration bound; an
interrupt, a fatal fault, or missing initial input exits without persisting it. -/
theorem C7_summary_on_normal_exit (svc : Nat → SvcRes) (inp : Nat → InpRes) (env : ExecEnv)
    (model input : String) :
    (run_orchestrated_session svc inp env model input).summarySaved = true
      ↔ ((run_orchestrated_session svc inp env model input).exitKind = ExitKind.complete
        ∨ (run_orchestrated_session svc inp env model input).exitKind = ExitKind.errPhase
        ∨ (run_orchestrated_session svc inp env model input).exitKind = ExitKind.stopped
        ∨ (run_orchestrated_session svc inp env model input).exitKind = ExitKind.boundReached) := by
  obtain ⟨_, _, _, _, _, h6, _, _⟩ := run_inv svc inp env model input
  constructor
  · intro hs
    rw [hs] at h6
    cases hk : (run_orchestrated_session svc inp env model input).exitKind with
    | complete => exact Or.inl rfl
    | errPhase => exact Or.inr (Or.inl rfl)
    | stopped => exact Or.inr (Or.inr (Or.inl rfl))
    | boundReached => exact Or.inr (Or.inr (Or.inr rfl))
    | interrupted => rw [hk] at h6; simp [normalExit] at h6
    | fatal => rw [hk] at h6; simp [normalExit] at h6
    | noInput => rw [hk] at h6; simp [normalExit] at h6
  · intro hd
    rcases hd with hk | hk | hk | hk <;> rw [h6, hk] <;> rfl

/-- C10: a successful oracle call appends exactly the outgoing user message and the
raw assistant reply to the history, a transport failure leaves the history
unchanged, and every continuation of the loop only extends the history, never
removing or truncating messages. -/
theorem C10_history_append_only :
    (∀ (hist : List Message) (msg text : String),
      send_to_claude_api hist msg (SvcRes.ok text)
        = some (hist ++ [⟨"user", msg⟩, ⟨"assistant", text⟩], parseResponse text))
    ∧ (∀ (hist : List Message) (msg e : String),
        send_to_claude_api hist msg (SvcRes.exn e) = some (hist, apiErrorPlan e))
    ∧ (∀ (svc : Nat → SvcRes) (inp : Nat → InpRes) (env : ExecEnv) (fuel it : Nat)
        (hist : List Message) (resp : Json) (req inpC : Nat) (model : String),
        hist <+: (loopGo svc inp env fuel it hist resp req inpC model).history) :=
  ⟨fun _ _ _ => rfl, fun _ _ _ => rfl,
    fun svc inp env fuel it hist resp req inpC model =>
      (loopGo_inv svc inp env fuel it hist resp req inpC model).2.2.2.2.1⟩
